import Mathlib

/-! Certificate-shim controller: queue dispatch, deletion re-enqueue and registration.

A shallow embedding of `pkg/controller/certificate-shim/controller.go`, followed by
the feature sets and the gateway label parsing of the ACME conformance suites in
`test/e2e/suite/conformance/certificates/acme/acme.go`.

* Go `error` values are the inductive `Err`; a `nil` error is `none`.
* Go `interface{}` payloads are the inductive `Obj`.
* Nil-able controller fields are `Option`s; calling a method through a nil
  interface field is the outcome `Outcome.panicked`.
* Every function returns, next to its Go result, the state it leaves behind and
  the list of calls it made to its collaborators (`Event`), in program order.
-/

namespace CertShim

/-! ## Errors -/

/-- Go error values met by the controller. -/
inductive Err where
  /-- An API status error carrying a `metav1.StatusReason`. -/
  | status (reason : String) (msg : String)
  /-- Built by `errors.New` or by `fmt.Errorf` without a wrapping verb. -/
  | plain (msg : String)
  /-- Built by `fmt.Errorf` with the wrapping verb: formatted text and cause. -/
  | wrapped (msg : String) (cause : Err)
  deriving DecidableEq, Repr

/-- Method `Error()` of an error value. -/
def Err.Error : Err → String
  | .status _ msg => msg
  | .plain msg => msg
  | .wrapped msg _ => msg

/-- Method `Unwrap()` of an error value (`errors.Unwrap`). -/
def Err.Unwrap : Err → Option Err
  | .wrapped _ cause => some cause
  | _ => none

/-- `k8sErrors.IsNotFound`: the status reason found along the wrap chain is `NotFound`. -/
def IsNotFound : Err → Bool
  | .status reason _ => reason == "NotFound"
  | .plain _ => false
  | .wrapped _ cause => IsNotFound cause

/-! ## Objects and keys -/

/-- `metav1.ObjectMeta`, reduced to the two fields the key functions read. -/
structure ObjectMeta where
  Namespace : String
  Name : String
  deriving DecidableEq, Repr

/-- Values that reach the controller behind `interface{}`. -/
inductive Obj where
  /-- A `*cmapi.Certificate`. -/
  | certificate (m : ObjectMeta)
  /-- A trigger object of the ingress kind. -/
  | ingress (m : ObjectMeta)
  /-- A trigger object of the gateway kind. -/
  | gateway (m : ObjectMeta)
  /-- A `cache.DeletedFinalStateUnknown` tombstone with its recorded key. -/
  | deletedFinalStateUnknown (key : String)
  /-- A `cache.ExplicitKey`. -/
  | explicitKey (key : String)
  /-- Any value without object metadata; `descr` is its Go-syntax rendering. -/
  | other (descr : String)
  deriving DecidableEq, Repr

/-- The metadata of an object, when it has any (`meta.Accessor`). -/
def Obj.accessor : Obj → Option ObjectMeta
  | .certificate m => some m
  | .ingress m => some m
  | .gateway m => some m
  | _ => none

/-- Rendering of an object with the Go-syntax verb, abbreviated to its identity. -/
def Obj.goSyntax : Obj → String
  | .certificate m => "&v1.Certificate\x7b" ++ m.Namespace ++ "/" ++ m.Name ++ "\x7d"
  | .ingress m => "&v1beta1.Ingress\x7b" ++ m.Namespace ++ "/" ++ m.Name ++ "\x7d"
  | .gateway m => "&v1alpha1.Gateway\x7b" ++ m.Namespace ++ "/" ++ m.Name ++ "\x7d"
  | .deletedFinalStateUnknown key => "cache.DeletedFinalStateUnknown\x7b" ++ key ++ "\x7d"
  | .explicitKey key => "cache.ExplicitKey(" ++ key ++ ")"
  | .other descr => descr

/-- `strings.Split` on character lists, for a one-character separator: the pieces
between consecutive separators, in order; an input without separator is one piece. -/
def splitChars (sep : Char) : List Char → List (List Char)
  | [] => [[]]
  | c :: cs =>
    if c = sep then [] :: splitChars sep cs
    else
      match splitChars sep cs with
      | [] => [[c]]
      | p :: ps => (c :: p) :: ps

/-- `strings.Split(s, sep)` for a one-character separator. -/
def Split (s : String) (sep : Char) : List String :=
  (splitChars sep s.data).map String.mk

/-- `cache.MetaNamespaceKeyFunc` (client-go): an explicit key is returned as is; an
object with metadata gives `namespace/name`, or `name` alone when the namespace is
empty; anything else is an error. -/
def MetaNamespaceKeyFunc (obj : Obj) : Except Err String :=
  match obj with
  | .explicitKey key => .ok key
  | _ =>
    match obj.accessor with
    | none => .error (.plain "object has no meta: object does not implement the Object interfaces")
    | some m =>
      if m.Namespace.length > 0 then .ok (m.Namespace ++ "/" ++ m.Name)
      else .ok m.Name

/-- `cache.DeletionHandlingMetaNamespaceKeyFunc` (client-go): a tombstone yields its
recorded key, everything else goes through `MetaNamespaceKeyFunc`. -/
def DeletionHandlingMetaNamespaceKeyFunc (obj : Obj) : Except Err String :=
  match obj with
  | .deletedFinalStateUnknown key => .ok key
  | _ => MetaNamespaceKeyFunc obj

/-- `cache.SplitMetaNamespaceKey` (client-go): split on the slash; one part is a bare
name, two parts are namespace and name, any other count is an error. -/
def SplitMetaNamespaceKey (key : String) : Except Err (String × String) :=
  match Split key '/' with
  | [name] => .ok ("", name)
  | [ns, name] => .ok (ns, name)
  | _ => .error (.plain ("unexpected key format: " ++ key))

/-! ## Work queue -/

/-- Modelled from the spec: the rate-limited work queue is an external collaborator
whose implementation is not part of the controller; the spec describes
it as a deduplicating FIFO of keys. `items` are the outstanding keys, oldest first. -/
structure WorkQueue where
  name : String
  items : List String
  deriving DecidableEq, Repr

/-- Modelled from the spec: `workqueue.NewNamedRateLimitingQueue`, a fresh empty queue. -/
def NewNamedRateLimitingQueue (name : String) : WorkQueue :=
  { name := name, items := [] }

/-- Modelled from the spec: `Add(key)` on the deduplicating FIFO; a key already
outstanding is not queued a second time. -/
def WorkQueue.Add (q : WorkQueue) (key : String) : WorkQueue :=
  if key ∈ q.items then q else { q with items := q.items ++ [key] }

/-! ## Controller state -/

/-- Resource kinds the controller watches or reads. -/
inductive Kind where
  | ingress | gateway | certificate | issuer | clusterIssuer
  deriving DecidableEq, Repr

/-- A `cache.SharedIndexInformer`, identified by the kind it watches. -/
structure SharedIndexInformer where
  kind : Kind
  deriving DecidableEq, Repr

/-- A generated lister over one kind. -/
structure Lister where
  kind : Kind
  deriving DecidableEq, Repr

/-- The trigger lister held by the controller: one of the two adapters. -/
inductive objectLister where
  | internalIngressLister (l : Lister)
  | internalGatewayLister (l : Lister)
  deriving DecidableEq, Repr

/-- A `cache.InformerSynced`: the `HasSynced` method value of an informer. -/
structure InformerSynced where
  informer : SharedIndexInformer
  deriving DecidableEq, Repr

/-- The two handlers `sharedRegister` installs. -/
inductive EventHandler where
  /-- A `QueuingEventHandler` feeding the named queue (`none`: a nil queue). -/
  | queuing (queue : Option String)
  /-- A `BlockingEventHandler` whose work function is `certificateDeleted`. -/
  | blockingCertificateDeleted
  deriving DecidableEq, Repr

/-- Result of `issuer.NewHelper`: the two listers it was given. -/
structure Helper where
  issuerLister : Option Lister
  clusterIssuerLister : Option Lister
  deriving DecidableEq, Repr

/-- The `defaults` struct. -/
structure defaults where
  autoCertificateAnnotations : List String
  issuerName : String
  issuerKind : String
  issuerGroup : String
  deriving DecidableEq, Repr

/-- The `controller` struct; a field that is `nil` in Go is `none`. -/
structure controller where
  queue : Option WorkQueue
  log : Option String
  kClient : Option String
  cmClient : Option String
  recorder : Option String
  objectLister : Option objectLister
  objectInformer : Option SharedIndexInformer
  certificateLister : Option Lister
  issuerLister : Option Lister
  clusterIssuerLister : Option Lister
  helper : Option Helper
  defaults : defaults
  deriving DecidableEq, Repr

/-- The zero value of `controller`, as in `&ingressShim{}` and `&gatewayShim{}`. -/
def controller.zero : controller :=
  { queue := none, log := none, kClient := none, cmClient := none, recorder := none,
    objectLister := none, objectInformer := none, certificateLister := none,
    issuerLister := none, clusterIssuerLister := none, helper := none,
    defaults := ⟨[], "", "", ""⟩ }

/-- The fields of `controllerpkg.Context` that registration reads. -/
structure Context where
  RESTConfig : String
  Namespace : String
  Client : String
  CMClient : String
  Recorder : String
  DefaultAutoCertificateAnnotations : List String
  DefaultIssuerName : String
  DefaultIssuerKind : String
  DefaultIssuerGroup : String
  deriving DecidableEq, Repr

/-- What the cluster answers to the calls made while the gateway controller is wired. -/
structure Discovery where
  /-- `discovery.NewDiscoveryClientForConfig`: the error, if construction fails. -/
  NewDiscoveryClientForConfig : String → Option Err
  /-- `ServerResourcesForGroupVersion`: the resource names of a group/version. -/
  ServerResourcesForGroupVersion : String → Except Err (List String)
  /-- `gatewayclient.NewForConfig`: the error, if construction fails. -/
  NewForConfig : String → Option Err

/-- Calls made to collaborators, recorded in program order. -/
inductive Event where
  | newQueue (name : String)
  | newDiscoveryClient (config : String)
  | serverResourcesForGroupVersion (groupVersion : String)
  | newGatewayClient (config : String)
  | newSharedInformerFactory (resyncHours : Nat)
  | informer (k : Kind)
  | lister (k : Kind)
  | factoryStart
  | addEventHandler (k : Kind) (h : EventHandler)
  | newHelper (issuerLister clusterIssuerLister : Option Lister)
  | handleError (e : Err)
  | objectsForCertificate (crt : ObjectMeta)
  | queueAdd (key : String)
  | get (l : objectLister) (ns name : String)
  | sync (obj : Obj)
  deriving DecidableEq, Repr

/-- How a call ends: it returns a value or the goroutine panics. -/
inductive Outcome (α : Type) where
  | returned (a : α)
  | panicked (msg : String)
  deriving DecidableEq, Repr

/-- A finished call: how it ended, the state it left, the calls it made. -/
structure Run (σ α : Type) where
  outcome : Outcome α
  state : σ
  events : List Event

/-- Message of the runtime panic raised by a method call through a nil interface. -/
def nilDereference : String :=
  "runtime error: invalid memory address or nil pointer dereference"

/-- What dispatch and the delete handler work on: the controller, the trigger cache
read through the lister, and the remote objects only `Sync` writes. -/
structure State where
  c : controller
  cache : objectLister → String → String → Except Err Obj
  remote : List Obj

/-! ## Registration -/

/-- `IngressShimControllerName`. -/
def IngressShimControllerName : String := "ingress-shim"

/-- `GatewayShimControllerName`. -/
def GatewayShimControllerName : String := "gateway-shim"

/-- `gatewayapi.GroupVersion.String()`. -/
def gatewayGroupVersion : String := "networking.x-k8s.io/v1alpha1"

/-- The three results of a `Register` call: queue, sync predicates (`none` is the nil
slice), error. -/
abbrev Registered := Option WorkQueue × Option (List InformerSynced) × Option Err

/-- `(*controller).sharedRegister`. -/
def sharedRegister (c : controller) (ctx : Context) : Run controller Registered :=
  match c.objectInformer with
  | none => ⟨.panicked nilDereference, c, []⟩
  | some objectInformer =>
    let mustSync : List InformerSynced :=
      [⟨objectInformer⟩, ⟨⟨.certificate⟩⟩, ⟨⟨.issuer⟩⟩]
    let ev₁ : List Event := [.informer .certificate, .informer .issuer]
    let c := { c with certificateLister := some ⟨.certificate⟩ }
    let c := { c with issuerLister := some ⟨.issuer⟩ }
    let ev₂ : List Event := ev₁ ++ [.lister .certificate, .lister .issuer]
    let (mustSync, c, ev₃) :=
      if ctx.Namespace = "" then
        (mustSync ++ [⟨⟨.clusterIssuer⟩⟩],
          { c with clusterIssuerLister := some ⟨.clusterIssuer⟩ },
          ev₂ ++ [.informer .clusterIssuer, .lister .clusterIssuer])
      else (mustSync, c, ev₂)
    let ev₄ : List Event := ev₃ ++
      [.addEventHandler objectInformer.kind (.queuing (c.queue.map (·.name))),
       .informer .certificate,
       .addEventHandler .certificate .blockingCertificateDeleted]
    let c := { c with helper := some ⟨c.issuerLister, c.clusterIssuerLister⟩ }
    let ev₅ : List Event := ev₄ ++ [.newHelper c.issuerLister c.clusterIssuerLister]
    let c := { c with kClient := some ctx.Client }
    let c := { c with cmClient := some ctx.CMClient }
    let c := { c with recorder := some ctx.Recorder }
    let c := { c with defaults :=
      ⟨ctx.DefaultAutoCertificateAnnotations, ctx.DefaultIssuerName,
        ctx.DefaultIssuerKind, ctx.DefaultIssuerGroup⟩ }
    ⟨.returned (c.queue, some mustSync, none), c, ev₅⟩

/-- `(*ingressShim).Register`. -/
def ingressShim.Register (i : controller) (ctx : Context) : Run controller Registered :=
  let i := { i with log := some IngressShimControllerName }
  let i := { i with queue := some (NewNamedRateLimitingQueue IngressShimControllerName) }
  let i := { i with objectInformer := some ⟨.ingress⟩ }
  let i := { i with objectLister := some (.internalIngressLister ⟨.ingress⟩) }
  let r := sharedRegister i ctx
  { r with events :=
      [.newQueue IngressShimControllerName, .informer .ingress, .lister .ingress] ++ r.events }

/-- `(*gatewayShim).Register`. -/
def gatewayShim.Register (d : Discovery) (g : controller) (ctx : Context) :
    Run controller Registered :=
  let g := { g with log := some GatewayShimControllerName }
  let g := { g with queue := some (NewNamedRateLimitingQueue GatewayShimControllerName) }
  let ev₁ : List Event := [.newQueue GatewayShimControllerName, .newDiscoveryClient ctx.RESTConfig]
  match d.NewDiscoveryClientForConfig ctx.RESTConfig with
  | some err =>
    ⟨.returned (none, none, some (.wrapped
        (GatewayShimControllerName ++ ": couldn't construct discovery client: " ++ err.Error)
        err)), g, ev₁⟩
  | none =>
    let ev₂ := ev₁ ++ [.serverResourcesForGroupVersion gatewayGroupVersion]
    match d.ServerResourcesForGroupVersion gatewayGroupVersion with
    | .error err =>
      ⟨.returned (none, none, some (.wrapped
          (GatewayShimControllerName ++ ": couldn't discover gateway API resources: " ++ err.Error)
          err)), g, ev₂⟩
    | .ok resources =>
      if resources.length = 0 then
        ⟨.returned (none, none, some (.plain (GatewayShimControllerName ++
            ": no gateway API resources were discovered (are the Gateway API CRDS installed?)"))),
          g, ev₂⟩
      else
        let ev₃ := ev₂ ++ [.newGatewayClient ctx.RESTConfig]
        match d.NewForConfig ctx.RESTConfig with
        | some err => ⟨.panicked err.Error, g, ev₃⟩
        | none =>
          let ev₄ := ev₃ ++ [.newSharedInformerFactory 10, .informer .gateway]
          let g := { g with objectInformer := some ⟨.gateway⟩ }
          let ev₅ := ev₄ ++ [.factoryStart, .lister .gateway]
          let g := { g with objectLister := some (.internalGatewayLister ⟨.gateway⟩) }
          let r := sharedRegister g ctx
          { r with events := ev₅ ++ r.events }

/-! ## Delete handler and dispatch -/

/-- The loop of `certificateDeleted` over the objects found: an object whose key
cannot be derived is reported and skipped, every other key is added to the queue. -/
def certificateDeleted.loop (q : Option WorkQueue) :
    List Obj → Outcome Unit × Option WorkQueue × List Event
  | [] => (.returned (), q, [])
  | o :: objs =>
    match DeletionHandlingMetaNamespaceKeyFunc o with
    | .error err =>
      let (r, q', ev) := certificateDeleted.loop q objs
      (r, q', .handleError err :: ev)
    | .ok key =>
      match q with
      | none => (.panicked nilDereference, none, [])
      | some w =>
        let (r, q', ev) := certificateDeleted.loop (some (w.Add key)) objs
        (r, q', .queueAdd key :: ev)

/-- `(*controller).certificateDeleted`. The dependency lookup `objectsForCertificate`
lives in another file of the package and is a parameter. -/
def certificateDeleted (objectsForCertificate : State → ObjectMeta → Except Err (List Obj))
    (s : State) (obj : Obj) : Run State Unit :=
  match obj with
  | .certificate crt =>
    match objectsForCertificate s crt with
    | .error _ =>
      ⟨.returned (), s,
        [.objectsForCertificate crt,
         .handleError (.plain ("Error looking up ingress observing certificate: " ++
            crt.Namespace ++ "/" ++ crt.Name))]⟩
    | .ok objs =>
      let (r, q, ev) := certificateDeleted.loop s.c.queue objs
      ⟨r, { s with c := { s.c with queue := q } }, .objectsForCertificate crt :: ev⟩
  | _ =>
    ⟨.returned (), s,
      [.handleError (.plain ("Object is not a certificate object " ++ obj.goSyntax))]⟩

/-- `(*controller).ProcessItem`. The kind-specific `Sync` lives in another file of the
package and is a parameter: it returns its error and the state it leaves. -/
def ProcessItem (Sync : Obj → State → Option Err × State) (s : State) (key : String) :
    Run State (Option Err) :=
  match SplitMetaNamespaceKey key with
  | .error _ =>
    ⟨.returned none, s, [.handleError (.plain ("invalid resource key: " ++ key))]⟩
  | .ok (ns, name) =>
    match s.c.objectLister with
    | none => ⟨.panicked nilDereference, s, []⟩
    | some l =>
      match s.cache l ns name with
      | .error err =>
        if IsNotFound err then
          ⟨.returned none, s,
            [.get l ns name,
             .handleError (.plain ("object \x27" ++ key ++ "\x27 in work queue no longer exists"))]⟩
        else ⟨.returned (some err), s, [.get l ns name]⟩
      | .ok obj =>
        let r := Sync obj s
        ⟨.returned r.1, r.2, [.get l ns name, .sync obj]⟩

/-! ## ACME conformance suites: unsupported feature sets

From `test/e2e/suite/conformance/certificates/acme/acme.go`. A feature set is a Go
map, hence a reference: the sets live in a `Heap` and a `FeatureSet` is an address. -/

/-- Modelled from the spec: the feature constants of package `featureset` that
`runACMEIssuerTests` names; the package is not among the sources, the constants are
taken as pairwise distinct. -/
inductive Feature where
  | IPAddressFeature
  | DurationFeature
  | WildcardsFeature
  | URISANsFeature
  | CommonNameFeature
  | KeyUsagesFeature
  | EmailSANsFeature
  | SaveCAToSecret
  | IssueCAFeature
  | Ed25519FeatureSet
  | LongDomainFeatureSet
  deriving DecidableEq, Repr

/-- Modelled from the spec: a `featureset.FeatureSet` value, the address of a map. -/
structure FeatureSet where
  addr : Nat
  deriving DecidableEq, Repr

/-- The feature-set maps allocated so far: `next` is the first free address and
`sets a` the members of the map at address `a`. -/
structure Heap where
  next : Nat
  sets : Nat → List Feature

/-- The heap before any feature set is built. -/
def Heap.empty : Heap := { next := 0, sets := fun _ => [] }

/-- Insertion of features into the members of a map, one by one; a member already
present is not repeated. -/
def addFeatures (members : List Feature) (feats : List Feature) : List Feature :=
  feats.foldl (fun acc f => if f ∈ acc then acc else acc ++ [f]) members

/-- Modelled from the spec: `featureset.NewFeatureSet(feats...)`, missing from the
sources: a new map holding the given features. -/
def NewFeatureSet (h : Heap) (feats : List Feature) : FeatureSet × Heap :=
  (⟨h.next⟩,
    { next := h.next + 1,
      sets := fun a => if a = h.next then addFeatures [] feats else h.sets a })

/-- Modelled from the spec: `FeatureSet.Add(feats...)`, missing from the sources: the
features are inserted into the receiver's map and the receiver is returned. -/
def FeatureSet.Add (fs : FeatureSet) (h : Heap) (feats : List Feature) : FeatureSet × Heap :=
  (fs,
    { h with sets := fun a => if a = fs.addr then addFeatures (h.sets a) feats else h.sets a })

/-- Modelled from the spec: `FeatureSet.Copy()`, missing from the sources: a new map
with the members of the receiver. -/
def FeatureSet.Copy (fs : FeatureSet) (h : Heap) : FeatureSet × Heap :=
  (⟨h.next⟩,
    { next := h.next + 1,
      sets := fun a => if a = h.next then addFeatures [] (h.sets fs.addr) else h.sets a })

/-- The `acmeIssuerProvisioner` struct, reduced to the key id of its binding. -/
structure acmeIssuerProvisioner where
  eab : Option String
  deriving DecidableEq, Repr

/-- The fields of `certificates.Suite` that `runACMEIssuerTests` sets; a bound method
is the pair of its receiver and its name. -/
structure Suite where
  Name : String
  HTTP01TestType : String
  DomainSuffix : String
  CreateIssuerFunc : acmeIssuerProvisioner × String
  DeleteIssuerFunc : acmeIssuerProvisioner × String
  UnsupportedFeatures : FeatureSet
  deriving DecidableEq, Repr

/-- `runACMEIssuerTests`: builds the four feature sets and defines the seven suites;
returns the suites in the order they are defined and the heap they refer to. -/
def runACMEIssuerTests (eab : Option String) (h : Heap) : List Suite × Heap :=
  let (unsupportedHTTP01Features, h) := NewFeatureSet h
    [.DurationFeature, .WildcardsFeature, .URISANsFeature, .CommonNameFeature,
     .KeyUsagesFeature, .EmailSANsFeature, .SaveCAToSecret, .IssueCAFeature]
  let (copied, h) := unsupportedHTTP01Features.Copy h
  let (unsupportedHTTP01GatewayFeatures, h) := copied.Add h [.IPAddressFeature]
  let (unsupportedDNS01Features, h) := NewFeatureSet h
    [.IPAddressFeature, .DurationFeature, .URISANsFeature, .CommonNameFeature,
     .KeyUsagesFeature, .EmailSANsFeature, .SaveCAToSecret, .IssueCAFeature]
  let (copied, h) := unsupportedHTTP01Features.Copy h
  let (unsupportedPublicACMEServerFeatures, h) := copied.Add h
    [.IPAddressFeature, .Ed25519FeatureSet, .LongDomainFeatureSet]
  let provisionerHTTP01 : acmeIssuerProvisioner := ⟨eab⟩
  let provisionerDNS01 : acmeIssuerProvisioner := ⟨eab⟩
  let provisionerPACMEHTTP01 : acmeIssuerProvisioner := ⟨none⟩
  ([ { Name := "ACME HTTP01 Issuer (Ingress)", HTTP01TestType := "Ingress",
       DomainSuffix := "",
       CreateIssuerFunc := (provisionerHTTP01, "createHTTP01IngressIssuer"),
       DeleteIssuerFunc := (provisionerHTTP01, "delete"),
       UnsupportedFeatures := unsupportedHTTP01Features },
     { Name := "ACME HTTP01 Issuer (Gateway)", HTTP01TestType := "Gateway",
       DomainSuffix := "",
       CreateIssuerFunc := (provisionerHTTP01, "createHTTP01GatewayIssuer"),
       DeleteIssuerFunc := (provisionerHTTP01, "delete"),
       UnsupportedFeatures := unsupportedHTTP01GatewayFeatures },
     { Name := "ACME DNS01 Issuer", HTTP01TestType := "",
       DomainSuffix := "dns01.example.com",
       CreateIssuerFunc := (provisionerDNS01, "createDNS01Issuer"),
       DeleteIssuerFunc := (provisionerDNS01, "delete"),
       UnsupportedFeatures := unsupportedDNS01Features },
     { Name := "ACME HTTP01 ClusterIssuer (Ingress)", HTTP01TestType := "Ingress",
       DomainSuffix := "",
       CreateIssuerFunc := (provisionerHTTP01, "createHTTP01IngressClusterIssuer"),
       DeleteIssuerFunc := (provisionerHTTP01, "delete"),
       UnsupportedFeatures := unsupportedHTTP01Features },
     { Name := "ACME HTTP01 ClusterIssuer (Gateway)", HTTP01TestType := "Gateway",
       DomainSuffix := "",
       CreateIssuerFunc := (provisionerHTTP01, "createHTTP01GatewayClusterIssuer"),
       DeleteIssuerFunc := (provisionerHTTP01, "delete"),
       UnsupportedFeatures := unsupportedHTTP01GatewayFeatures },
     { Name := "ACME DNS01 ClusterIssuer", HTTP01TestType := "",
       DomainSuffix := "dns01.example.com",
       CreateIssuerFunc := (provisionerDNS01, "createDNS01ClusterIssuer"),
       DeleteIssuerFunc := (provisionerDNS01, "delete"),
       UnsupportedFeatures := unsupportedDNS01Features },
     { Name := "Public ACME Server HTTP01 Issuer (Ingress)", HTTP01TestType := "Ingress",
       DomainSuffix := "",
       CreateIssuerFunc := (provisionerPACMEHTTP01, "createPublicACMEServerStagingHTTP01Issuer"),
       DeleteIssuerFunc := (provisionerPACMEHTTP01, "delete"),
       UnsupportedFeatures := unsupportedPublicACMEServerFeatures } ],
   h)

/-- The feature set a suite of the given name was defined with. -/
def unsupportedFeaturesOf (suites : List Suite) (name : String) : Option FeatureSet :=
  (suites.find? (fun suite => suite.Name = name)).map (·.UnsupportedFeatures)

/-! ## ACME conformance suites: gateway labels -/

/-- A Go `map[string]string`: the value stored under each key, if any. -/
abbrev StringMap := String → Option String

/-- The map `make(map[string]string)`. -/
def StringMap.make : StringMap := fun _ => none

/-- The assignment `m[k] = v`. -/
def StringMap.set (m : StringMap) (k v : String) : StringMap :=
  fun key => if key = k then some v else m key

/-- The label parsing at the head of `createHTTP01GatewayIssuer`, applied to
`f.Config.Addons.Gateway.Labels`. -/
def createHTTP01GatewayIssuer.labels (Labels : String) : StringMap :=
  let labelFlag := Split Labels ','
  labelFlag.foldl
    (fun labels l =>
      let kv := Split l '='
      if kv.length ≠ 2 then labels
      else labels.set (kv.getD 0 "") (kv.getD 1 ""))
    StringMap.make

/-- The label parsing at the head of `createHTTP01GatewayClusterIssuer`. -/
def createHTTP01GatewayClusterIssuer.labels (Labels : String) : StringMap :=
  let labelFlag := Split Labels ','
  labelFlag.foldl
    (fun labels l =>
      let kv := Split l '='
      if kv.length ≠ 2 then labels
      else labels.set (kv.getD 0 "") (kv.getD 1 ""))
    StringMap.make

/-- One turn of the label loop: the map after the entry `l`. -/
def labelStep (labels : StringMap) (l : String) : StringMap :=
  if (Split l '=').length ≠ 2 then labels
  else labels.set ((Split l '=').getD 0 "") ((Split l '=').getD 1 "")

/-! ## Concrete inputs used to exercise the theorems -/

/-- The trigger object `ns1/web` of the ingress kind. -/
def webIngress : Obj := .ingress ⟨"ns1", "web"⟩

/-- The certificate `ns1/web-tls`. -/
def webTLS : ObjectMeta := ⟨"ns1", "web-tls"⟩

/-- A dependency lookup that finds `ns1/web` for `ns1/web-tls` and fails elsewhere. -/
def sampleLookup : State → ObjectMeta → Except Err (List Obj) :=
  fun _ crt =>
    if crt = webTLS then .ok [webIngress]
    else .error (.plain "list failed")

/-- A trigger cache holding exactly `ns1/web`; namespace `broken` cannot be read. -/
def sampleCache : objectLister → String → String → Except Err Obj :=
  fun _ ns name =>
    if ns = "broken" then .error (.status "InternalError" "cache unavailable")
    else if ns = "ns1" ∧ name = "web" then .ok webIngress
    else .error (.status "NotFound" ("ingress " ++ name ++ " not found"))

/-- An ingress controller after registration, with an empty queue. -/
def sampleController : controller :=
  { controller.zero with
    queue := some (NewNamedRateLimitingQueue IngressShimControllerName),
    objectLister := some (.internalIngressLister ⟨.ingress⟩),
    objectInformer := some ⟨.ingress⟩ }

/-- The state of `sampleController` over `sampleCache`, nothing written remotely. -/
def sampleState : State :=
  { c := sampleController, cache := sampleCache, remote := [] }

/-- A `Sync` that requests the certificate `<namespace>/<name>-tls` of the trigger
when it is not there yet, and fails on objects without metadata. -/
def sampleSync : Obj → State → Option Err × State :=
  fun obj s =>
    match obj.accessor with
    | none => (some (.plain "not a trigger object"), s)
    | some m =>
      let crt := Obj.certificate ⟨m.Namespace, m.Name ++ "-tls"⟩
      if crt ∈ s.remote then (none, s)
      else (none, { s with remote := crt :: s.remote })

/-- A registration context scoped to the namespace `ns1`. -/
def namespacedContext : Context :=
  { RESTConfig := "https://cluster.local", Namespace := "ns1", Client := "kube-client",
    CMClient := "cm-client", Recorder := "recorder",
    DefaultAutoCertificateAnnotations := ["kubernetes.io/tls-acme"],
    DefaultIssuerName := "", DefaultIssuerKind := "Issuer",
    DefaultIssuerGroup := "cert-manager.io" }

/-- The same context in cluster-wide mode: the namespace is empty. -/
def clusterWideContext : Context :=
  { namespacedContext with Namespace := "" }

/-- A cluster that answers discovery for the gateway group with no resource at all. -/
def gatewayNotInstalled : Discovery :=
  { NewDiscoveryClientForConfig := fun _ => none,
    ServerResourcesForGroupVersion := fun _ => .ok [],
    NewForConfig := fun _ => none }

/-- A cluster whose discovery endpoint refuses the connection. -/
def discoveryUnreachable : Discovery :=
  { NewDiscoveryClientForConfig := fun _ => none,
    ServerResourcesForGroupVersion := fun _ => .error (.plain "connection refused"),
    NewForConfig := fun _ => none }

/-! ## Lemmas on splitting -/

theorem splitChars_ne_nil (sep : Char) (l : List Char) : splitChars sep l ≠ [] := by
  induction l with
  | nil => simp [splitChars]
  | cons c cs ih =>
    by_cases h : c = sep
    · simp [splitChars, h]
    · cases hs : splitChars sep cs with
      | nil => exact absurd hs ih
      | cons p ps => simp [splitChars, h, hs]

theorem length_splitChars (sep : Char) (l : List Char) :
    (splitChars sep l).length = l.count sep + 1 := by
  induction l with
  | nil => simp [splitChars]
  | cons c cs ih =>
    by_cases h : c = sep
    · subst h
      simp [splitChars, ih]
    · cases hs : splitChars sep cs with
      | nil => exact absurd hs (splitChars_ne_nil sep cs)
      | cons p ps =>
        rw [hs] at ih
        simp only [List.length_cons] at ih
        simp [splitChars, h, hs, List.count_cons, ih]

theorem splitChars_of_not_mem (sep : Char) (l : List Char) (h : sep ∉ l) :
    splitChars sep l = [l] := by
  induction l with
  | nil => simp [splitChars]
  | cons c cs ih =>
    have hc : c ≠ sep := fun e => h (by simp [e])
    have hcs : sep ∉ cs := fun e => h (by simp [e])
    simp [splitChars, hc, ih hcs]

theorem splitChars_append (sep : Char) (a b : List Char) (h : sep ∉ a) :
    splitChars sep (a ++ sep :: b) = a :: splitChars sep b := by
  induction a with
  | nil => simp [splitChars]
  | cons c cs ih =>
    have hc : c ≠ sep := fun e => h (by simp [e])
    have hcs : sep ∉ cs := fun e => h (by simp [e])
    simp [splitChars, hc, ih hcs]

theorem length_Split (s : String) (sep : Char) :
    (Split s sep).length = s.data.count sep + 1 := by
  simp [Split, length_splitChars]

theorem SplitMetaNamespaceKey_error (key : String) (h : 2 ≤ key.data.count '/') :
    SplitMetaNamespaceKey key = .error (.plain ("unexpected key format: " ++ key)) := by
  have hl := length_Split key '/'
  unfold SplitMetaNamespaceKey
  rcases hs : Split key '/' with _ | ⟨a, _ | ⟨b, _ | ⟨c, t⟩⟩⟩
  · simp [hs] at hl
  · simp [hs] at hl
    omega
  · simp [hs] at hl
    omega
  · rfl

theorem SplitMetaNamespaceKey_pair (ns n : String)
    (hns : '/' ∉ ns.data) (hn : '/' ∉ n.data) :
    SplitMetaNamespaceKey (ns ++ "/" ++ n) = .ok (ns, n) := by
  have hd : (ns ++ "/" ++ n).data = ns.data ++ '/' :: n.data := by
    simp [String.data_append]
  unfold SplitMetaNamespaceKey Split
  rw [hd, splitChars_append _ _ _ hns, splitChars_of_not_mem _ _ hn]
  rfl

/-! ## Lemmas on the queue and the delete loop -/

theorem mem_Add (q : WorkQueue) (key : String) : key ∈ (q.Add key).items := by
  unfold WorkQueue.Add
  split_ifs with h
  · exact h
  · simp

theorem subset_Add (q : WorkQueue) (key : String) : q.items ⊆ (q.Add key).items := by
  unfold WorkQueue.Add
  split_ifs with h
  · exact fun _ hx => hx
  · intro x hx
    simp [hx]

theorem loop_some (objs : List Obj) : ∀ w : WorkQueue,
    ∃ w', (certificateDeleted.loop (some w) objs).1 = .returned () ∧
      (certificateDeleted.loop (some w) objs).2.1 = some w' ∧
      w.items ⊆ w'.items ∧
      ∀ o ∈ objs, ∀ k, DeletionHandlingMetaNamespaceKeyFunc o = .ok k → k ∈ w'.items := by
  induction objs with
  | nil =>
    intro w
    exact ⟨w, rfl, rfl, fun _ hx => hx, by simp⟩
  | cons o os ih =>
    intro w
    cases hk : DeletionHandlingMetaNamespaceKeyFunc o with
    | error err =>
      obtain ⟨w', h1, h2, h3, h4⟩ := ih w
      refine ⟨w', ?_, ?_, h3, ?_⟩
      · simp [certificateDeleted.loop, hk, h1]
      · simp [certificateDeleted.loop, hk, h2]
      · intro o' ho' k hk'
        rcases List.mem_cons.mp ho' with rfl | hmem
        · rw [hk] at hk'; cases hk'
        · exact h4 o' hmem k hk'
    | ok key =>
      obtain ⟨w', h1, h2, h3, h4⟩ := ih (w.Add key)
      refine ⟨w', ?_, ?_, fun x hx => h3 (subset_Add w key hx), ?_⟩
      · simp [certificateDeleted.loop, hk, h1]
      · simp [certificateDeleted.loop, hk, h2]
      · intro o' ho' k hk'
        rcases List.mem_cons.mp ho' with rfl | hmem
        · rw [hk] at hk'
          cases hk'
          exact h3 (mem_Add w key)
        · exact h4 o' hmem k hk'

theorem loop_events (objs : List Obj) : ∀ w : WorkQueue,
    ∀ o ∈ objs, ∀ k, DeletionHandlingMetaNamespaceKeyFunc o = .ok k →
      Event.queueAdd k ∈ (certificateDeleted.loop (some w) objs).2.2 := by
  induction objs with
  | nil => simp
  | cons o os ih =>
    intro w o' ho' k hk'
    cases hk : DeletionHandlingMetaNamespaceKeyFunc o with
    | error err =>
      rcases List.mem_cons.mp ho' with rfl | hmem
      · rw [hk] at hk'
        cases hk'
      · simp only [certificateDeleted.loop, hk]
        exact List.mem_cons_of_mem _ (ih w o' hmem k hk')
    | ok key =>
      simp only [certificateDeleted.loop, hk]
      rcases List.mem_cons.mp ho' with rfl | hmem
      · rw [hk] at hk'
        cases hk'
        exact List.mem_cons_self _ _
      · exact List.mem_cons_of_mem _ (ih (w.Add key) o' hmem k hk')

theorem ProcessItem_found (Sync : Obj → State → Option Err × State) (s : State)
    (key ns name : String) (l : objectLister) (obj : Obj)
    (hkey : SplitMetaNamespaceKey key = .ok (ns, name))
    (hl : s.c.objectLister = some l) (hget : s.cache l ns name = .ok obj) :
    ProcessItem Sync s key
      = ⟨.returned (Sync obj s).1, (Sync obj s).2, [.get l ns name, .sync obj]⟩ := by
  simp [ProcessItem, hkey, hl, hget]

theorem ProcessItem_state_of_not_found (Sync : Obj → State → Option Err × State) (s : State)
    (key : String)
    (h : ∀ ns name l obj, SplitMetaNamespaceKey key = .ok (ns, name) →
      s.c.objectLister = some l → s.cache l ns name ≠ .ok obj) :
    (ProcessItem Sync s key).state = s ∧
    ∀ obj, Event.sync obj ∉ (ProcessItem Sync s key).events := by
  cases hk : SplitMetaNamespaceKey key with
  | error x => simp [ProcessItem, hk]
  | ok p =>
    obtain ⟨ns, name⟩ := p
    cases hl : s.c.objectLister with
    | none => simp [ProcessItem, hk, hl]
    | some l =>
      cases hg : s.cache l ns name with
      | error err =>
        by_cases hnf : IsNotFound err = true
        · simp [ProcessItem, hk, hl, hg, hnf]
        · simp [ProcessItem, hk, hl, hg, hnf]
      | ok obj => exact absurd hg (h ns name l obj hk hl)

theorem ProcessItem_no_queueAdd (Sync : Obj → State → Option Err × State) (s : State)
    (key : String) : ∀ k, Event.queueAdd k ∉ (ProcessItem Sync s key).events := by
  intro k
  cases hk : SplitMetaNamespaceKey key with
  | error x => simp [ProcessItem, hk]
  | ok p =>
    obtain ⟨ns, name⟩ := p
    cases hl : s.c.objectLister with
    | none => simp [ProcessItem, hk, hl]
    | some l =>
      cases hg : s.cache l ns name with
      | error err =>
        by_cases hnf : IsNotFound err = true
        · simp [ProcessItem, hk, hl, hg, hnf]
        · simp [ProcessItem, hk, hl, hg, hnf]
      | ok obj => simp [ProcessItem, hk, hl, hg]

theorem ProcessItem_lookup_first (Sync : Obj → State → Option Err × State) (s : State)
    (key ns name : String) (l : objectLister)
    (hkey : SplitMetaNamespaceKey key = .ok (ns, name))
    (hl : s.c.objectLister = some l) :
    ∃ rest, (ProcessItem Sync s key).events = .get l ns name :: rest := by
  cases hg : s.cache l ns name with
  | error err =>
    by_cases hnf : IsNotFound err = true
    · simp [ProcessItem, hkey, hl, hg, hnf]
    · simp [ProcessItem, hkey, hl, hg, hnf]
  | ok obj => simp [ProcessItem, hkey, hl, hg]

theorem length_pos_iff (s : String) : s.length > 0 ↔ s ≠ "" := by
  rcases s with ⟨l⟩
  cases l with
  | nil => simp [String.length]
  | cons c cs =>
    have : String.mk (c :: cs) ≠ "" := fun e => by
      have := congrArg String.data e
      simp at this
    simp [String.length, this]

theorem key_of_trigger (T : Obj) (m : ObjectMeta) (hT : T = .ingress m ∨ T = .gateway m) :
    DeletionHandlingMetaNamespaceKeyFunc T =
      .ok (if m.Namespace = "" then m.Name else m.Namespace ++ "/" ++ m.Name) := by
  have hlen : m.Namespace.length > 0 ↔ m.Namespace ≠ "" := by
    exact length_pos_iff m.Namespace
  by_cases hns : m.Namespace = ""
  · have : ¬ m.Namespace.length > 0 := fun h => hlen.mp h hns
    rcases hT with rfl | rfl <;>
      simp [DeletionHandlingMetaNamespaceKeyFunc, MetaNamespaceKeyFunc, Obj.accessor, hns]
  · have : m.Namespace.length > 0 := hlen.mpr hns
    rcases hT with rfl | rfl <;>
      simp [DeletionHandlingMetaNamespaceKeyFunc, MetaNamespaceKeyFunc, Obj.accessor, hns, this]

theorem SplitMetaNamespaceKey_ok (key : String) (h : key.data.count '/' < 2) :
    ∃ p, SplitMetaNamespaceKey key = .ok p := by
  have hl := length_Split key '/'
  unfold SplitMetaNamespaceKey
  rcases hs : Split key '/' with _ | ⟨a, _ | ⟨b, _ | ⟨c, t⟩⟩⟩
  · simp [hs] at hl
  · exact ⟨_, rfl⟩
  · exact ⟨_, rfl⟩
  · simp [hs] at hl
    omega

theorem SplitMetaNamespaceKey_error_iff (key : String) :
    (∃ e, SplitMetaNamespaceKey key = .error e) ↔ 2 ≤ key.data.count '/' := by
  constructor
  · rintro ⟨e, he⟩
    by_contra hlt
    obtain ⟨p, hp⟩ := SplitMetaNamespaceKey_ok key (by omega)
    rw [hp] at he
    cases he
  · intro h
    exact ⟨_, SplitMetaNamespaceKey_error key h⟩

/-! ## Deletion of a certificate re-enqueues its owners -/

/-- C1: when `certificateDeleted` is called with a Certificate and the dependency
lookup returns the objects `objs`, it returns normally and every trigger object `T`
among `objs` has its key in the work queue afterwards: `namespace/name`, or the bare
name for an empty namespace. Keys queued before are still there. -/
theorem certificateDeleted_enqueues_owners
    (objectsForCertificate : State → ObjectMeta → Except Err (List Obj))
    (s : State) (q : WorkQueue) (crt : ObjectMeta) (objs : List Obj) (T : Obj)
    (m : ObjectMeta)
    (hq : s.c.queue = some q)
    (hobjs : objectsForCertificate s crt = .ok objs)
    (hT : T ∈ objs) (hm : T = .ingress m ∨ T = .gateway m) :
    (certificateDeleted objectsForCertificate s (.certificate crt)).outcome = .returned () ∧
    ∃ q', (certificateDeleted objectsForCertificate s (.certificate crt)).state.c.queue
        = some q' ∧
      q.items ⊆ q'.items ∧
      (if m.Namespace = "" then m.Name else m.Namespace ++ "/" ++ m.Name) ∈ q'.items := by
  obtain ⟨w', h1, h2, h3, h4⟩ := loop_some objs q
  refine ⟨?_, w', ?_, h3, h4 T hT _ (key_of_trigger T m hm)⟩
  · simp only [certificateDeleted, hobjs, hq]
    exact h1
  · simp only [certificateDeleted, hobjs, hq]
    exact h2

/-- Witness for C1: deleting `ns1/web-tls`, owned by `ns1/web`, leaves `ns1/web` queued. -/
theorem certificateDeleted_enqueues_owners_witness :
    (certificateDeleted sampleLookup sampleState (.certificate webTLS)).outcome
      = .returned () ∧
    ∃ q', (certificateDeleted sampleLookup sampleState (.certificate webTLS)).state.c.queue
        = some q' ∧
      (NewNamedRateLimitingQueue IngressShimControllerName).items ⊆ q'.items ∧
      "ns1/web" ∈ q'.items :=
  certificateDeleted_enqueues_owners sampleLookup sampleState
    (NewNamedRateLimitingQueue IngressShimControllerName) webTLS [webIngress] webIngress
    ⟨"ns1", "web"⟩ rfl rfl (List.mem_singleton.mpr rfl) (Or.inl rfl)

/-! ## Dispatch -/

/-- C2: a key cannot be split exactly when it holds two or more slashes, and for
such a key `ProcessItem` returns nil, leaves the state as it was, and its only call is
the error report: it neither reads the trigger lister nor invokes `Sync`. -/
theorem ProcessItem_malformed_key (Sync : Obj → State → Option Err × State)
    (s : State) (key : String) :
    ((∃ e, SplitMetaNamespaceKey key = .error e) ↔ 2 ≤ key.data.count '/') ∧
    ((∃ e, SplitMetaNamespaceKey key = .error e) →
      (ProcessItem Sync s key).outcome = .returned none ∧
      (ProcessItem Sync s key).state = s ∧
      (ProcessItem Sync s key).events
        = [.handleError (.plain ("invalid resource key: " ++ key))] ∧
      (∀ l ns name, Event.get l ns name ∉ (ProcessItem Sync s key).events) ∧
      (∀ obj, Event.sync obj ∉ (ProcessItem Sync s key).events)) := by
  refine ⟨SplitMetaNamespaceKey_error_iff key, ?_⟩
  rintro ⟨e, he⟩
  simp [ProcessItem, he]

/-- Witness for C2: the key `a/b/c` is dropped without lookup or sync. -/
theorem ProcessItem_malformed_key_witness :
    2 ≤ "a/b/c".data.count '/' ∧
    (ProcessItem sampleSync sampleState "a/b/c").outcome = .returned none ∧
    (ProcessItem sampleSync sampleState "a/b/c").events
      = [.handleError (.plain "invalid resource key: a/b/c")] :=
  have h := ProcessItem_malformed_key sampleSync sampleState "a/b/c"
  have h2 : 2 ≤ "a/b/c".data.count '/' := by decide
  ⟨h2, (h.2 (h.1.mpr h2)).1, (h.2 (h.1.mpr h2)).2.2.1⟩

/-- C3: for a well-formed key whose lookup in the trigger cache fails with a
not-found error, `ProcessItem` returns nil, leaves the state as it was, and makes the
lookup and one error report only: `Sync` is never invoked. -/
theorem ProcessItem_not_found (Sync : Obj → State → Option Err × State)
    (s : State) (key ns name : String) (l : objectLister) (err : Err)
    (hkey : SplitMetaNamespaceKey key = .ok (ns, name))
    (hl : s.c.objectLister = some l)
    (hget : s.cache l ns name = .error err)
    (hnf : IsNotFound err = true) :
    (ProcessItem Sync s key).outcome = .returned none ∧
    (ProcessItem Sync s key).state = s ∧
    (ProcessItem Sync s key).events
      = [.get l ns name,
         .handleError (.plain ("object \x27" ++ key ++ "\x27 in work queue no longer exists"))] ∧
    (∀ obj, Event.sync obj ∉ (ProcessItem Sync s key).events) := by
  simp [ProcessItem, hkey, hl, hget, hnf]

/-- Witness for C3: `ns1/gone` is not in the cache and is dropped. -/
theorem ProcessItem_not_found_witness :
    (ProcessItem sampleSync sampleState "ns1/gone").outcome = .returned none ∧
    (ProcessItem sampleSync sampleState "ns1/gone").state = sampleState ∧
    (ProcessItem sampleSync sampleState "ns1/gone").events
      = [.get (.internalIngressLister ⟨.ingress⟩) "ns1" "gone",
         .handleError (.plain ("object \x27" ++ "ns1/gone" ++
            "\x27 in work queue no longer exists"))] ∧
    (∀ obj, Event.sync obj ∉ (ProcessItem sampleSync sampleState "ns1/gone").events) :=
  ProcessItem_not_found sampleSync sampleState "ns1/gone" "ns1" "gone"
    (.internalIngressLister ⟨.ingress⟩) (.status "NotFound" "ingress gone not found")
    rfl rfl rfl rfl

/-- C4: `ProcessItem` returns a non-nil error `e` exactly when the key splits, and
either the lookup fails with `e`, which is not a not-found error (then the state is
untouched and `Sync` is not invoked), or the lookup finds an object and `Sync` returns
`e`. Whenever the lookup finds an object, the result and the state left are those
of `Sync` on that object. -/
theorem ProcessItem_error_iff (Sync : Obj → State → Option Err × State)
    (s : State) (key : String) :
    (∀ e, (ProcessItem Sync s key).outcome = .returned (some e) ↔
      ∃ ns name l, SplitMetaNamespaceKey key = .ok (ns, name) ∧
        s.c.objectLister = some l ∧
        ((s.cache l ns name = .error e ∧ IsNotFound e = false ∧
            (ProcessItem Sync s key).state = s ∧
            ∀ obj, Event.sync obj ∉ (ProcessItem Sync s key).events) ∨
          (∃ obj, s.cache l ns name = .ok obj ∧ (Sync obj s).1 = some e))) ∧
    (∀ ns name l obj, SplitMetaNamespaceKey key = .ok (ns, name) →
        s.c.objectLister = some l → s.cache l ns name = .ok obj →
        (ProcessItem Sync s key).outcome = .returned (Sync obj s).1 ∧
        (ProcessItem Sync s key).state = (Sync obj s).2 ∧
        (ProcessItem Sync s key).events = [.get l ns name, .sync obj]) := by
  constructor
  · intro e
    cases hk : SplitMetaNamespaceKey key with
    | error x => simp [ProcessItem, hk]
    | ok p =>
      obtain ⟨ns, name⟩ := p
      cases hl : s.c.objectLister with
      | none => simp [ProcessItem, hk, hl]
      | some l =>
        cases hg : s.cache l ns name with
        | error err =>
          by_cases hnf : IsNotFound err = true
          · simp only [ProcessItem, hk, hl, hg, hnf, if_true]
            constructor
            · intro h
              cases h
            · rintro ⟨ns', name', l', h1, h2, h3⟩
              cases h1
              cases h2
              rcases h3 with ⟨h3, h4, _⟩ | ⟨obj, h3, _⟩
              · rw [hg] at h3
                cases h3
                rw [hnf] at h4
                cases h4
              · rw [hg] at h3
                cases h3
          · simp only [ProcessItem, hk, hl, hg, hnf]
            constructor
            · intro h
              cases h
              refine ⟨ns, name, l, rfl, rfl, Or.inl ⟨hg, ?_, rfl, ?_⟩⟩
              · simpa using hnf
              · simp
            · rintro ⟨ns', name', l', h1, h2, h3⟩
              cases h1
              cases h2
              rcases h3 with ⟨h3, _⟩ | ⟨obj, h3, _⟩
              · rw [hg] at h3
                cases h3
                rfl
              · rw [hg] at h3
                cases h3
        | ok obj =>
          simp only [ProcessItem, hk, hl, hg]
          constructor
          · intro h
            have he : (Sync obj s).1 = some e := Outcome.returned.inj h
            exact ⟨ns, name, l, rfl, rfl, Or.inr ⟨obj, hg, he⟩⟩
          · rintro ⟨ns', name', l', h1, h2, h3⟩
            cases h1
            cases h2
            rcases h3 with ⟨h3, _⟩ | ⟨obj', h3, h4⟩
            · rw [hg] at h3
              cases h3
            · rw [hg] at h3
              cases h3
              rw [h4]
  · intro ns name l obj hk hl hg
    simp [ProcessItem, hk, hl, hg]

/-- Witness for C4: a cache failure on `broken/web` is returned as is, and for
`ns1/web` the result is that of `Sync` on the object found. -/
theorem ProcessItem_error_iff_witness :
    (ProcessItem sampleSync sampleState "broken/web").outcome
      = .returned (some (.status "InternalError" "cache unavailable")) ∧
    (ProcessItem sampleSync sampleState "ns1/web").outcome
      = .returned (sampleSync webIngress sampleState).1 :=
  ⟨((ProcessItem_error_iff sampleSync sampleState "broken/web").1 _).mpr
      ⟨"broken", "web", .internalIngressLister ⟨.ingress⟩, rfl, rfl,
        Or.inl ⟨rfl, rfl, rfl, fun obj h => by
          have he : (ProcessItem sampleSync sampleState "broken/web").events
              = [.get (.internalIngressLister ⟨.ingress⟩) "broken" "web"] := rfl
          rw [he] at h
          simp at h⟩⟩,
    ((ProcessItem_error_iff sampleSync sampleState "ns1/web").2 "ns1" "web"
      (.internalIngressLister ⟨.ingress⟩) webIngress rfl rfl rfl).1⟩

/-! ## Registration of the gateway controller -/

/-- C5 as stated fails: on a cluster without gateway resources, `Register` on a fresh
controller does not leave the queue field unset and does create a queue. -/
theorem gatewayShim_Register_not_installed_creates_queue :
    ¬ ((∃ e, (gatewayShim.Register gatewayNotInstalled controller.zero namespacedContext).outcome
          = .returned (none, none, some e)) ∧
       (gatewayShim.Register gatewayNotInstalled controller.zero namespacedContext).state.queue
          = none ∧
       (∀ n, Event.newQueue n ∉
          (gatewayShim.Register gatewayNotInstalled controller.zero namespacedContext).events) ∧
       (∀ k, Event.informer k ∉
          (gatewayShim.Register gatewayNotInstalled controller.zero namespacedContext).events) ∧
       Event.factoryStart ∉
          (gatewayShim.Register gatewayNotInstalled controller.zero namespacedContext).events ∧
       (∀ k h, Event.addEventHandler k h ∉
          (gatewayShim.Register gatewayNotInstalled controller.zero namespacedContext).events)) := by
  rintro ⟨_, hq, _⟩
  have h : (gatewayShim.Register gatewayNotInstalled controller.zero namespacedContext).state.queue
      = some (NewNamedRateLimitingQueue GatewayShimControllerName) := rfl
  rw [h] at hq
  cases hq

/-- C5, amended: when discovery succeeds with zero resources, `Register` returns a nil
queue, a nil predicate list and the error saying that no gateway API resources were
discovered. Its only calls are the queue creation and the two discovery calls: no
informer is constructed or started, no lister is obtained and no event handler is
registered. The controller keeps all its fields except the logger and the queue, which
hold the new logger and the new, empty queue. -/
theorem gatewayShim_Register_not_installed (d : Discovery) (g : controller) (ctx : Context)
    (hclient : d.NewDiscoveryClientForConfig ctx.RESTConfig = none)
    (hres : d.ServerResourcesForGroupVersion gatewayGroupVersion = .ok []) :
    (gatewayShim.Register d g ctx).outcome
      = .returned (none, none, some (.plain (GatewayShimControllerName ++
          ": no gateway API resources were discovered (are the Gateway API CRDS installed?)"))) ∧
    (gatewayShim.Register d g ctx).state
      = { g with log := some GatewayShimControllerName,
                 queue := some (NewNamedRateLimitingQueue GatewayShimControllerName) } ∧
    (gatewayShim.Register d g ctx).events
      = [.newQueue GatewayShimControllerName, .newDiscoveryClient ctx.RESTConfig,
         .serverResourcesForGroupVersion gatewayGroupVersion] ∧
    (∀ k, Event.informer k ∉ (gatewayShim.Register d g ctx).events) ∧
    (∀ k, Event.lister k ∉ (gatewayShim.Register d g ctx).events) ∧
    Event.factoryStart ∉ (gatewayShim.Register d g ctx).events ∧
    (∀ k h, Event.addEventHandler k h ∉ (gatewayShim.Register d g ctx).events) := by
  simp [gatewayShim.Register, hclient, hres]

/-- Witness for C5, amended: a fresh controller on a cluster without gateway resources. -/
theorem gatewayShim_Register_not_installed_witness :
    (gatewayShim.Register gatewayNotInstalled controller.zero namespacedContext).outcome
      = .returned (none, none, some (.plain
          "gateway-shim: no gateway API resources were discovered (are the Gateway API CRDS installed?)")) ∧
    (gatewayShim.Register gatewayNotInstalled controller.zero namespacedContext).state
      = { controller.zero with log := some "gateway-shim",
                               queue := some ⟨"gateway-shim", []⟩ } ∧
    (gatewayShim.Register gatewayNotInstalled controller.zero namespacedContext).events
      = [.newQueue "gateway-shim", .newDiscoveryClient "https://cluster.local",
         .serverResourcesForGroupVersion "networking.x-k8s.io/v1alpha1"] :=
  have h := gatewayShim_Register_not_installed gatewayNotInstalled controller.zero
    namespacedContext rfl rfl
  ⟨h.1, h.2.1, h.2.2.1⟩

/-- C6: when the discovery client cannot be constructed, or the discovery call
returns an error, `Register` returns a nil queue, a nil predicate list and an error
that wraps the cause. `sharedRegister` is not reached: the only calls are the queue
creation and the discovery calls, and the controller keeps every field except the
logger and the queue set at the start. -/
theorem gatewayShim_Register_discovery_fails (d : Discovery) (g : controller) (ctx : Context)
    (cause : Err)
    (hfail : d.NewDiscoveryClientForConfig ctx.RESTConfig = some cause ∨
      (d.NewDiscoveryClientForConfig ctx.RESTConfig = none ∧
        d.ServerResourcesForGroupVersion gatewayGroupVersion = .error cause)) :
    (∃ e, (gatewayShim.Register d g ctx).outcome = .returned (none, none, some e) ∧
      e.Unwrap = some cause) ∧
    (gatewayShim.Register d g ctx).state
      = { g with log := some GatewayShimControllerName,
                 queue := some (NewNamedRateLimitingQueue GatewayShimControllerName) } ∧
    (∀ ev ∈ (gatewayShim.Register d g ctx).events,
      ev = .newQueue GatewayShimControllerName ∨ ev = .newDiscoveryClient ctx.RESTConfig ∨
      ev = .serverResourcesForGroupVersion gatewayGroupVersion) := by
  rcases hfail with h | ⟨h1, h2⟩
  · simp [gatewayShim.Register, h, Err.Unwrap]
  · simp [gatewayShim.Register, h1, h2, Err.Unwrap]

/-- Witness for C6: the discovery call is refused. -/
theorem gatewayShim_Register_discovery_fails_witness :
    (∃ e, (gatewayShim.Register discoveryUnreachable controller.zero clusterWideContext).outcome
        = .returned (none, none, some e) ∧
      e.Unwrap = some (.plain "connection refused")) ∧
    (gatewayShim.Register discoveryUnreachable controller.zero clusterWideContext).state.helper
      = none :=
  have h := gatewayShim_Register_discovery_fails discoveryUnreachable controller.zero
    clusterWideContext (.plain "connection refused") (Or.inr ⟨rfl, rfl⟩)
  ⟨h.1, by rw [h.2.1]; rfl⟩

/-! ## Shared registration and namespace scoping -/

/-- C7: on a controller whose trigger informer is set, `sharedRegister` returns the
controller's own queue and a nil error in both modes. With a non-empty namespace it
returns exactly the trigger, certificate and issuer predicates, leaves the
cluster-issuer lister as it was (unset on a controller that had none), and asks for no
cluster-issuer informer or lister. With an empty namespace it returns those three
predicates followed by the cluster-issuer predicate and sets the cluster-issuer lister. -/
theorem sharedRegister_scoping (c : controller) (ctx : Context) (inf : SharedIndexInformer)
    (hinf : c.objectInformer = some inf) :
    (ctx.Namespace ≠ "" →
      (sharedRegister c ctx).outcome
        = .returned (c.queue, some [⟨inf⟩, ⟨⟨.certificate⟩⟩, ⟨⟨.issuer⟩⟩], none) ∧
      (sharedRegister c ctx).state.clusterIssuerLister = c.clusterIssuerLister ∧
      (c.clusterIssuerLister = none → (sharedRegister c ctx).state.clusterIssuerLister = none) ∧
      Event.informer .clusterIssuer ∉ (sharedRegister c ctx).events ∧
      Event.lister .clusterIssuer ∉ (sharedRegister c ctx).events) ∧
    (ctx.Namespace = "" →
      (sharedRegister c ctx).outcome
        = .returned (c.queue,
            some [⟨inf⟩, ⟨⟨.certificate⟩⟩, ⟨⟨.issuer⟩⟩, ⟨⟨.clusterIssuer⟩⟩], none) ∧
      (sharedRegister c ctx).state.clusterIssuerLister = some ⟨.clusterIssuer⟩) ∧
    (sharedRegister c ctx).state.queue = c.queue := by
  by_cases hns : ctx.Namespace = ""
  · simp [sharedRegister, hinf, hns]
  · simp [sharedRegister, hinf, hns]

/-- Witness for C7: a controller with its trigger informer set, registered in the
namespace `ns1` and then cluster-wide. -/
theorem sharedRegister_scoping_witness :
    (sharedRegister sampleController namespacedContext).outcome
      = .returned (some ⟨"ingress-shim", []⟩,
          some [⟨⟨.ingress⟩⟩, ⟨⟨.certificate⟩⟩, ⟨⟨.issuer⟩⟩], none) ∧
    (sharedRegister sampleController namespacedContext).state.clusterIssuerLister = none ∧
    (sharedRegister sampleController clusterWideContext).outcome
      = .returned (some ⟨"ingress-shim", []⟩,
          some [⟨⟨.ingress⟩⟩, ⟨⟨.certificate⟩⟩, ⟨⟨.issuer⟩⟩, ⟨⟨.clusterIssuer⟩⟩], none) ∧
    (sharedRegister sampleController clusterWideContext).state.clusterIssuerLister
      = some ⟨.clusterIssuer⟩ :=
  have h₁ := (sharedRegister_scoping sampleController namespacedContext ⟨.ingress⟩ rfl).1
    (by decide)
  have h₂ := (sharedRegister_scoping sampleController clusterWideContext ⟨.ingress⟩ rfl).2.1
    rfl
  ⟨h₁.1, h₁.2.2.1 rfl, h₂.1, h₂.2⟩

/-! ## The delete handler drops what it cannot handle -/

/-- C8: when its argument is not a Certificate, or the dependency lookup returns an
error, `certificateDeleted` returns normally, leaves the whole state (the work queue
included) as it was, and adds no key to the queue. -/
theorem certificateDeleted_drops
    (objectsForCertificate : State → ObjectMeta → Except Err (List Obj))
    (s : State) (obj : Obj)
    (h : (∀ crt, obj ≠ .certificate crt) ∨
      (∃ crt e, obj = .certificate crt ∧ objectsForCertificate s crt = .error e)) :
    (certificateDeleted objectsForCertificate s obj).outcome = .returned () ∧
    (certificateDeleted objectsForCertificate s obj).state = s ∧
    (∀ k, Event.queueAdd k ∉ (certificateDeleted objectsForCertificate s obj).events) := by
  rcases h with h | ⟨crt, e, rfl, he⟩
  · cases obj with
    | certificate crt => exact absurd rfl (h crt)
    | ingress m => simp [certificateDeleted]
    | gateway m => simp [certificateDeleted]
    | deletedFinalStateUnknown key => simp [certificateDeleted]
    | explicitKey key => simp [certificateDeleted]
    | other descr => simp [certificateDeleted]
  · simp [certificateDeleted, he]

/-- Witness for C8: a tombstone instead of a Certificate, and a Certificate whose
dependency lookup fails. -/
theorem certificateDeleted_drops_witness :
    ((certificateDeleted sampleLookup sampleState
        (.deletedFinalStateUnknown "ns1/web-tls")).outcome = .returned () ∧
      (certificateDeleted sampleLookup sampleState
        (.deletedFinalStateUnknown "ns1/web-tls")).state = sampleState) ∧
    ((certificateDeleted sampleLookup sampleState
        (.certificate ⟨"ns2", "api-tls"⟩)).outcome = .returned () ∧
      (certificateDeleted sampleLookup sampleState
        (.certificate ⟨"ns2", "api-tls"⟩)).state = sampleState) :=
  have h₁ := certificateDeleted_drops sampleLookup sampleState
    (.deletedFinalStateUnknown "ns1/web-tls") (Or.inl (fun _ h => by cases h))
  have h₂ := certificateDeleted_drops sampleLookup sampleState
    (.certificate ⟨"ns2", "api-tls"⟩)
    (Or.inr ⟨⟨"ns2", "api-tls"⟩, .plain "list failed", rfl, rfl⟩)
  ⟨⟨h₁.1, h₁.2.1⟩, ⟨h₂.1, h₂.2.1⟩⟩

/-! ## Dispatch mutates nothing by itself -/

/-- C9: `ProcessItem` changes the state only through `Sync`. Either `Sync` is not
invoked and the state (controller fields, queue, cache) is the one before the call, or
`Sync` is invoked on the object found and the state and result are exactly those of
`Sync`; in no case does `ProcessItem` add a key to the queue. Hence, when `Sync` is
idempotent on this state and the first call leaves the cache and the lister as they
were, a second `ProcessItem` on the same key gives the same result and the same state
as the first. -/
theorem ProcessItem_frame (Sync : Obj → State → Option Err × State)
    (s : State) (key : String) :
    (((ProcessItem Sync s key).state = s ∧
        ∀ obj, Event.sync obj ∉ (ProcessItem Sync s key).events) ∨
      (∃ obj, Event.sync obj ∈ (ProcessItem Sync s key).events ∧
        (ProcessItem Sync s key).state = (Sync obj s).2 ∧
        (ProcessItem Sync s key).outcome = .returned (Sync obj s).1)) ∧
    (∀ k, Event.queueAdd k ∉ (ProcessItem Sync s key).events) ∧
    ((∀ obj, Sync obj (Sync obj s).2 = Sync obj s) →
      (ProcessItem Sync s key).state.cache = s.cache →
      (ProcessItem Sync s key).state.c.objectLister = s.c.objectLister →
      (ProcessItem Sync (ProcessItem Sync s key).state key).outcome
        = (ProcessItem Sync s key).outcome ∧
      (ProcessItem Sync (ProcessItem Sync s key).state key).state
        = (ProcessItem Sync s key).state) := by
  by_cases hfound : ∃ ns name l obj, SplitMetaNamespaceKey key = .ok (ns, name) ∧
      s.c.objectLister = some l ∧ s.cache l ns name = .ok obj
  · obtain ⟨ns, name, l, obj, hk, hl, hg⟩ := hfound
    have h₁ := ProcessItem_found Sync s key ns name l obj hk hl hg
    refine ⟨Or.inr ⟨obj, ?_, ?_, ?_⟩, ProcessItem_no_queueAdd Sync s key, ?_⟩
    · rw [h₁]
      simp
    · rw [h₁]
    · rw [h₁]
    · intro hidem hcache hlister
      rw [h₁] at hcache hlister ⊢
      simp only at hcache hlister ⊢
      have hl' : (Sync obj s).2.c.objectLister = some l := hlister.trans hl
      have hg' : (Sync obj s).2.cache l ns name = .ok obj := by
        rw [hcache]
        exact hg
      rw [ProcessItem_found Sync (Sync obj s).2 key ns name l obj hk hl' hg', hidem obj]
      exact ⟨rfl, rfl⟩
  · have hnone : ∀ ns name l obj, SplitMetaNamespaceKey key = .ok (ns, name) →
        s.c.objectLister = some l → s.cache l ns name ≠ .ok obj :=
      fun ns name l obj hk hl hg => hfound ⟨ns, name, l, obj, hk, hl, hg⟩
    have h₁ := ProcessItem_state_of_not_found Sync s key hnone
    refine ⟨Or.inl h₁, ProcessItem_no_queueAdd Sync s key, ?_⟩
    intro _ _ _
    rw [h₁.1]
    exact ⟨rfl, h₁.1⟩

/-- Witness for C9: `sampleSync` is idempotent on `sampleState`; dispatching `ns1/web`
a second time returns the same result and leaves the same state. -/
theorem ProcessItem_frame_witness :
    (ProcessItem sampleSync (ProcessItem sampleSync sampleState "ns1/web").state
        "ns1/web").outcome
      = (ProcessItem sampleSync sampleState "ns1/web").outcome ∧
    (ProcessItem sampleSync (ProcessItem sampleSync sampleState "ns1/web").state
        "ns1/web").state
      = (ProcessItem sampleSync sampleState "ns1/web").state ∧
    (ProcessItem sampleSync sampleState "ns1/web").state.remote
      = [.certificate ⟨"ns1", "web-tls"⟩] :=
  have h := (ProcessItem_frame sampleSync sampleState "ns1/web").2.2
    (fun obj => by
      cases hm : obj.accessor with
      | none => simp [sampleSync, hm]
      | some m => simp [sampleSync, hm, sampleState])
    rfl rfl
  ⟨h.1, h.2, rfl⟩

/-! ## Keys identify namespace and name -/

/-- C10: for a trigger object `T` with non-empty namespace `ns` and name `n`, neither
containing a slash, the key derived for `T` is `ns/n`, and `certificateDeleted` adds
that key to the queue when the lookup returns `T`. Any trigger object under the same
conditions with the same key has the same namespace and name. The key splits back
into `(ns, n)`, and `ProcessItem` on it starts with the cache lookup of name `n` in
namespace `ns`. -/
theorem key_identifies_pair
    (objectsForCertificate : State → ObjectMeta → Except Err (List Obj))
    (Sync : Obj → State → Option Err × State)
    (s : State) (q : WorkQueue) (l : objectLister) (crt : ObjectMeta) (objs : List Obj)
    (T : Obj) (ns n : String)
    (hT : T = .ingress ⟨ns, n⟩ ∨ T = .gateway ⟨ns, n⟩)
    (hne : ns ≠ "") (hns : '/' ∉ ns.data) (hn : '/' ∉ n.data)
    (hq : s.c.queue = some q) (hl : s.c.objectLister = some l)
    (hobjs : objectsForCertificate s crt = .ok objs) (hmem : T ∈ objs) :
    DeletionHandlingMetaNamespaceKeyFunc T = .ok (ns ++ "/" ++ n) ∧
    Event.queueAdd (ns ++ "/" ++ n)
      ∈ (certificateDeleted objectsForCertificate s (.certificate crt)).events ∧
    (∀ T' ns' n', (T' = .ingress ⟨ns', n'⟩ ∨ T' = .gateway ⟨ns', n'⟩) →
      ns' ≠ "" → '/' ∉ ns'.data → '/' ∉ n'.data →
      DeletionHandlingMetaNamespaceKeyFunc T' = DeletionHandlingMetaNamespaceKeyFunc T →
      ns' = ns ∧ n' = n) ∧
    SplitMetaNamespaceKey (ns ++ "/" ++ n) = .ok (ns, n) ∧
    (∃ rest, (ProcessItem Sync s (ns ++ "/" ++ n)).events = .get l ns n :: rest) := by
  have hkey : DeletionHandlingMetaNamespaceKeyFunc T = .ok (ns ++ "/" ++ n) := by
    have h := key_of_trigger T ⟨ns, n⟩ hT
    simpa [hne] using h
  have hsplit := SplitMetaNamespaceKey_pair ns n hns hn
  refine ⟨hkey, ?_, ?_, hsplit, ProcessItem_lookup_first Sync s _ ns n l hsplit hl⟩
  · have h := loop_events objs q T hmem _ hkey
    simp only [certificateDeleted, hobjs, hq]
    exact List.mem_cons_of_mem _ h
  · intro T' ns' n' hT' hne' hns' hn' heq
    have hkey' : DeletionHandlingMetaNamespaceKeyFunc T' = .ok (ns' ++ "/" ++ n') := by
      have h := key_of_trigger T' ⟨ns', n'⟩ hT'
      simpa [hne'] using h
    rw [hkey, hkey'] at heq
    have hk : ns' ++ "/" ++ n' = ns ++ "/" ++ n := Except.ok.inj heq
    have hs' := SplitMetaNamespaceKey_pair ns' n' hns' hn'
    rw [hk, hsplit] at hs'
    have hp : (ns, n) = (ns', n') := Except.ok.inj hs'
    exact ⟨(Prod.mk.inj hp).1.symm, (Prod.mk.inj hp).2.symm⟩

/-- Witness for C10: the owner `ns1/web` of the deleted certificate `ns1/web-tls` is
enqueued as `ns1/web` and resolved as namespace `ns1`, name `web`. -/
theorem key_identifies_pair_witness :
    DeletionHandlingMetaNamespaceKeyFunc webIngress = .ok "ns1/web" ∧
    Event.queueAdd "ns1/web"
      ∈ (certificateDeleted sampleLookup sampleState (.certificate webTLS)).events ∧
    SplitMetaNamespaceKey "ns1/web" = .ok ("ns1", "web") ∧
    (∃ rest, (ProcessItem sampleSync sampleState "ns1/web").events
      = .get (.internalIngressLister ⟨.ingress⟩) "ns1" "web" :: rest) :=
  have h := key_identifies_pair sampleLookup sampleSync sampleState
    (NewNamedRateLimitingQueue IngressShimControllerName) (.internalIngressLister ⟨.ingress⟩)
    webTLS [webIngress] webIngress "ns1" "web" (Or.inl rfl) (by decide) (by decide)
    (by decide) rfl rfl rfl (List.mem_singleton.mpr rfl)
  ⟨h.1, h.2.1, h.2.2.2.1, h.2.2.2.2⟩

/-! ## Keys without a slash -/

theorem SplitMetaNamespaceKey_bare (key : String) (h : '/' ∉ key.data) :
    SplitMetaNamespaceKey key = .ok ("", key) := by
  unfold SplitMetaNamespaceKey Split
  rw [splitChars_of_not_mem _ _ h]
  rfl

theorem invalid_ne_gone (key : String) :
    Err.plain ("invalid resource key: " ++ key)
      ≠ Err.plain ("object \x27" ++ key ++ "\x27 in work queue no longer exists") := by
  intro h
  have hs : "invalid resource key: " ++ key
      = "object \x27" ++ key ++ "\x27 in work queue no longer exists" := Err.plain.inj h
  have hd := congrArg (fun t : String => t.data.head?) hs
  simp [String.data_append] at hd

/-- C13: a key without a slash, the empty key included, is not malformed for
`ProcessItem`: it splits into the empty namespace and the key as name, the cache is
read for that name in the empty namespace, no invalid-key report is made, and the
outcome is the one of the usual paths: nil on not-found, the error on another lookup
failure, and the result of `Sync` when the object is found. -/
theorem ProcessItem_bare_key (Sync : Obj → State → Option Err × State)
    (s : State) (key : String) (l : objectLister)
    (hkey : '/' ∉ key.data) (hl : s.c.objectLister = some l) :
    SplitMetaNamespaceKey key = .ok ("", key) ∧
    (∃ rest, (ProcessItem Sync s key).events = .get l "" key :: rest) ∧
    Event.handleError (.plain ("invalid resource key: " ++ key))
      ∉ (ProcessItem Sync s key).events ∧
    (∀ e, s.cache l "" key = .error e → IsNotFound e = true →
      (ProcessItem Sync s key).outcome = .returned none ∧
      (ProcessItem Sync s key).state = s ∧
      (ProcessItem Sync s key).events
        = [.get l "" key,
           .handleError (.plain ("object \x27" ++ key ++
              "\x27 in work queue no longer exists"))]) ∧
    (∀ e, s.cache l "" key = .error e → IsNotFound e = false →
      (ProcessItem Sync s key).outcome = .returned (some e) ∧
      (ProcessItem Sync s key).state = s ∧
      (ProcessItem Sync s key).events = [.get l "" key]) ∧
    (∀ obj, s.cache l "" key = .ok obj →
      (ProcessItem Sync s key).outcome = .returned (Sync obj s).1 ∧
      (ProcessItem Sync s key).state = (Sync obj s).2 ∧
      (ProcessItem Sync s key).events = [.get l "" key, .sync obj]) := by
  have hsplit := SplitMetaNamespaceKey_bare key hkey
  refine ⟨hsplit, ProcessItem_lookup_first Sync s key "" key l hsplit hl, ?_, ?_, ?_, ?_⟩
  · cases hg : s.cache l "" key with
    | error err =>
      by_cases hnf : IsNotFound err = true
      · simp only [ProcessItem, hsplit, hl, hg, hnf, if_true]
        intro hmem
        rcases List.mem_cons.mp hmem with h | h
        · cases h
        · rcases List.mem_cons.mp h with h | h
          · exact invalid_ne_gone key (Event.handleError.inj h)
          · cases h
      · simp [ProcessItem, hsplit, hl, hg, hnf]
    | ok obj => simp [ProcessItem, hsplit, hl, hg]
  · intro e hg hnf
    simp [ProcessItem, hsplit, hl, hg, hnf]
  · intro e hg hnf
    simp [ProcessItem, hsplit, hl, hg, hnf]
  · intro obj hg
    simp [ProcessItem, hsplit, hl, hg]

/-- Witness for C13: the empty key and the key `web` are looked up in the empty
namespace and, not being cached there, dropped as not found. -/
theorem ProcessItem_bare_key_witness :
    (SplitMetaNamespaceKey "" = .ok ("", "") ∧
      (ProcessItem sampleSync sampleState "").outcome = .returned none ∧
      (ProcessItem sampleSync sampleState "").events
        = [.get (.internalIngressLister ⟨.ingress⟩) "" "",
           .handleError (.plain "object \x27\x27 in work queue no longer exists")]) ∧
    (SplitMetaNamespaceKey "web" = .ok ("", "web") ∧
      (ProcessItem sampleSync sampleState "web").outcome = .returned none ∧
      (ProcessItem sampleSync sampleState "web").events
        = [.get (.internalIngressLister ⟨.ingress⟩) "" "web",
           .handleError (.plain "object \x27web\x27 in work queue no longer exists")]) :=
  have h₁ := ProcessItem_bare_key sampleSync sampleState ""
    (.internalIngressLister ⟨.ingress⟩) (by decide) rfl
  have h₂ := ProcessItem_bare_key sampleSync sampleState "web"
    (.internalIngressLister ⟨.ingress⟩) (by decide) rfl
  have g₁ := h₁.2.2.2.1 (.status "NotFound" "ingress  not found") rfl rfl
  have g₂ := h₂.2.2.2.1 (.status "NotFound" "ingress web not found") rfl rfl
  ⟨⟨h₁.1, g₁.1, g₁.2.2⟩, ⟨h₂.1, g₂.1, g₂.2.2⟩⟩

/-! ## Gateway labels -/

theorem splitChars_no_sep (sep : Char) (l : List Char) :
    ∀ p ∈ splitChars sep l, sep ∉ p := by
  induction l with
  | nil => simp [splitChars]
  | cons c cs ih =>
    by_cases h : c = sep
    · intro p hp
      simp only [splitChars, h, if_true, List.mem_cons] at hp
      rcases hp with rfl | hp
      · simp
      · exact ih p hp
    · cases hs : splitChars sep cs with
      | nil => exact absurd hs (splitChars_ne_nil sep cs)
      | cons q qs =>
        rw [hs] at ih
        intro p hp
        simp only [splitChars, h, if_false, hs, List.mem_cons] at hp
        rcases hp with rfl | hp
        · intro hmem
          rcases List.mem_cons.mp hmem with e | e
          · exact h e.symm
          · exact ih q (List.mem_cons_self _ _) e
        · exact ih p (List.mem_cons_of_mem _ hp)

theorem splitChars_single (sep : Char) (l b : List Char) (h : splitChars sep l = [b]) :
    l = b := by
  induction l generalizing b with
  | nil =>
    simp only [splitChars, List.cons.injEq, and_true] at h
    exact h
  | cons c cs ih =>
    by_cases hc : c = sep
    · simp only [splitChars, hc, if_true, List.cons.injEq] at h
      exact absurd h.2 (splitChars_ne_nil sep cs)
    · cases hs : splitChars sep cs with
      | nil => exact absurd hs (splitChars_ne_nil sep cs)
      | cons q qs =>
        simp only [splitChars, hc, if_false, hs, List.cons.injEq] at h
        obtain ⟨rfl, rfl⟩ := h
        rw [ih q hs]

theorem splitChars_two (sep : Char) (l a b : List Char) (h : splitChars sep l = [a, b]) :
    l = a ++ sep :: b := by
  induction l generalizing a with
  | nil => simp [splitChars] at h
  | cons c cs ih =>
    by_cases hc : c = sep
    · simp only [splitChars, hc, if_true, List.cons.injEq] at h
      obtain ⟨rfl, h⟩ := h
      rw [splitChars_single sep cs b h, hc]
      rfl
    · cases hs : splitChars sep cs with
      | nil => exact absurd hs (splitChars_ne_nil sep cs)
      | cons q qs =>
        simp only [splitChars, hc, if_false, hs, List.cons.injEq] at h
        obtain ⟨rfl, rfl⟩ := h
        rw [ih q hs]
        rfl

theorem Split_pair_iff (e k v : String) :
    Split e '=' = [k, v] ↔ e = k ++ "=" ++ v ∧ '=' ∉ k.data ∧ '=' ∉ v.data := by
  constructor
  · intro h
    have hc : splitChars '=' e.data = [k.data, v.data] := by
      unfold Split at h
      rcases hs : splitChars '=' e.data with _ | ⟨a, _ | ⟨b, _ | ⟨c, t⟩⟩⟩
      · rw [hs] at h; simp at h
      · rw [hs] at h; simp at h
      · rw [hs] at h
        simp only [List.map_cons, List.map_nil, List.cons.injEq, and_true] at h
        obtain ⟨rfl, rfl⟩ := h
        rfl
      · rw [hs] at h; simp at h
    have hno := splitChars_no_sep '=' e.data
    rw [hc] at hno
    refine ⟨?_, hno _ (by simp), hno _ (by simp)⟩
    apply String.ext
    rw [splitChars_two '=' e.data k.data v.data hc]
    simp [String.data_append]
  · rintro ⟨rfl, hk, hv⟩
    have hd : (k ++ "=" ++ v).data = k.data ++ '=' :: v.data := by
      simp [String.data_append]
    unfold Split
    rw [hd, splitChars_append _ _ _ hk, splitChars_of_not_mem _ _ hv]
    rfl

theorem count_of_pair (k v : String) (hk : '=' ∉ k.data) (hv : '=' ∉ v.data) :
    (k ++ "=" ++ v).data.count '=' = 1 := by
  have hd : (k ++ "=" ++ v).data = k.data ++ '=' :: v.data := by
    simp [String.data_append]
  rw [hd, List.count_append, List.count_cons_self, List.count_eq_zero_of_not_mem hk,
    List.count_eq_zero_of_not_mem hv]

theorem Split_pair_of_count (e : String) (h : e.data.count '=' = 1) :
    ∃ k v, Split e '=' = [k, v] := by
  have hl := length_Split e '='
  rw [h] at hl
  rcases hs : Split e '=' with _ | ⟨a, _ | ⟨b, _ | ⟨c, t⟩⟩⟩
  · rw [hs] at hl; simp at hl
  · rw [hs] at hl; simp at hl
  · exact ⟨a, b, rfl⟩
  · rw [hs] at hl; simp at hl

theorem labelStep_get (m : StringMap) (e k v : String) :
    labelStep m e k = some v ↔
      Split e '=' = [k, v] ∨ ((∀ v', Split e '=' ≠ [k, v']) ∧ m k = some v) := by
  rcases hs : Split e '=' with _ | ⟨a, _ | ⟨b, _ | ⟨c, t⟩⟩⟩
  · simp [labelStep, hs]
  · simp [labelStep, hs]
  · by_cases hk : k = a
    · subst hk
      simp [labelStep, hs, StringMap.set]
    · have hk' : ¬ a = k := fun h => hk h.symm
      simp [labelStep, hs, StringMap.set, hk, hk']
  · simp [labelStep, hs]

theorem foldl_labelStep_get (L : List String) : ∀ (m : StringMap) (k v : String),
    (L.foldl labelStep m) k = some v ↔
      (∃ pre x post, L = pre ++ x :: post ∧ Split x '=' = [k, v] ∧
        ∀ y ∈ post, ∀ v', Split y '=' ≠ [k, v']) ∨
      ((∀ y ∈ L, ∀ v', Split y '=' ≠ [k, v']) ∧ m k = some v) := by
  induction L with
  | nil =>
    intro m k v
    simp
  | cons e L ih =>
    intro m k v
    rw [List.foldl_cons, ih (labelStep m e) k v, labelStep_get]
    constructor
    · rintro (⟨pre, x, post, rfl, hx, hpost⟩ | ⟨hL, hstep | ⟨hne, hm⟩⟩)
      · exact Or.inl ⟨e :: pre, x, post, rfl, hx, hpost⟩
      · exact Or.inl ⟨[], e, L, rfl, hstep, hL⟩
      · refine Or.inr ⟨?_, hm⟩
        intro y hy v'
        rcases List.mem_cons.mp hy with rfl | hy
        · exact hne v'
        · exact hL y hy v'
    · rintro (⟨pre, x, post, hsplit, hx, hpost⟩ | ⟨hall, hm⟩)
      · cases pre with
        | nil =>
          simp only [List.nil_append, List.cons.injEq] at hsplit
          obtain ⟨rfl, rfl⟩ := hsplit
          exact Or.inr ⟨hpost, Or.inl hx⟩
        | cons p pre =>
          simp only [List.cons_append, List.cons.injEq] at hsplit
          obtain ⟨rfl, rfl⟩ := hsplit
          exact Or.inl ⟨pre, x, post, rfl, hx, hpost⟩
      · exact Or.inr ⟨fun y hy v' => hall y (List.mem_cons_of_mem _ hy) v',
          Or.inr ⟨fun v' => hall e (List.mem_cons_self _ _) v', hm⟩⟩

theorem foldl_labelStep_isSome (L : List String) : ∀ (m : StringMap) (k : String),
    ((∃ e ∈ L, ∃ v, Split e '=' = [k, v]) ∨ (m k).isSome) →
      ((L.foldl labelStep m) k).isSome := by
  induction L with
  | nil =>
    intro m k h
    simpa using h
  | cons e L ih =>
    intro m k h
    rw [List.foldl_cons]
    apply ih
    by_cases hL : ∃ e' ∈ L, ∃ v, Split e' '=' = [k, v]
    · exact Or.inl hL
    · right
      by_cases he : ∃ v, Split e '=' = [k, v]
      · obtain ⟨v, hv⟩ := he
        rw [Option.isSome_iff_exists]
        exact ⟨v, (labelStep_get m e k v).mpr (Or.inl hv)⟩
      · have hm : (m k).isSome := by
          rcases h with ⟨e', he', v, hv⟩ | hm
          · rcases List.mem_cons.mp he' with rfl | he'
            · exact absurd ⟨v, hv⟩ he
            · exact absurd ⟨e', he', v, hv⟩ hL
          · exact hm
        obtain ⟨v, hv⟩ := Option.isSome_iff_exists.mp hm
        rw [Option.isSome_iff_exists]
        exact ⟨v, (labelStep_get m e k v).mpr
          (Or.inr ⟨fun v' hv' => he ⟨v', hv'⟩, hv⟩)⟩

/-- C12: for every label string the label parsing of `createHTTP01GatewayIssuer` and
that of `createHTTP01GatewayClusterIssuer` compute the same map. The map binds `k` to
`v` exactly when `k=v`, with no further equals sign in `k` or `v` (so exactly one in
the entry), is one of the comma-separated entries and no later entry is `k=v'` of
that form: the last well-formed entry for a key wins. Every entry with exactly one
equals sign has that form and its key is bound; when no entry has exactly one equals
sign the map is empty. -/
theorem gateway_labels (Labels : String) :
    createHTTP01GatewayIssuer.labels Labels
      = createHTTP01GatewayClusterIssuer.labels Labels ∧
    (∀ k v, createHTTP01GatewayIssuer.labels Labels k = some v ↔
      ∃ pre post, Split Labels ',' = pre ++ (k ++ "=" ++ v) :: post ∧
        '=' ∉ k.data ∧ '=' ∉ v.data ∧ (k ++ "=" ++ v).data.count '=' = 1 ∧
        ∀ e ∈ post, ∀ v', '=' ∉ v'.data → e ≠ k ++ "=" ++ v') ∧
    (∀ e ∈ Split Labels ',', e.data.count '=' = 1 →
      ∃ k v, e = k ++ "=" ++ v ∧ '=' ∉ k.data ∧ '=' ∉ v.data ∧
        (createHTTP01GatewayIssuer.labels Labels k).isSome) ∧
    ((∀ e ∈ Split Labels ',', e.data.count '=' ≠ 1) →
      ∀ k, createHTTP01GatewayIssuer.labels Labels k = none) := by
  have hfold : createHTTP01GatewayIssuer.labels Labels
      = (Split Labels ',').foldl labelStep StringMap.make := rfl
  have hget : ∀ k v, createHTTP01GatewayIssuer.labels Labels k = some v ↔
      ∃ pre post, Split Labels ',' = pre ++ (k ++ "=" ++ v) :: post ∧
        '=' ∉ k.data ∧ '=' ∉ v.data ∧ (k ++ "=" ++ v).data.count '=' = 1 ∧
        ∀ e ∈ post, ∀ v', '=' ∉ v'.data → e ≠ k ++ "=" ++ v' := by
    intro k v
    rw [hfold, foldl_labelStep_get]
    constructor
    · rintro (⟨pre, x, post, hL, hx, hpost⟩ | ⟨_, hm⟩)
      · obtain ⟨rfl, hk, hv⟩ := (Split_pair_iff x k v).mp hx
        refine ⟨pre, post, hL, hk, hv, count_of_pair k v hk hv, ?_⟩
        intro e he v' hv' heq
        exact hpost e he v' ((Split_pair_iff e k v').mpr ⟨heq, hk, hv'⟩)
      · simp [StringMap.make] at hm
    · rintro ⟨pre, post, hL, hk, hv, _, hpost⟩
      refine Or.inl ⟨pre, k ++ "=" ++ v, post, hL,
        (Split_pair_iff _ k v).mpr ⟨rfl, hk, hv⟩, ?_⟩
      intro y hy v' hsplit
      obtain ⟨heq, _, hv'⟩ := (Split_pair_iff y k v').mp hsplit
      exact hpost y hy v' hv' heq
  refine ⟨rfl, hget, ?_, ?_⟩
  · intro e he hcount
    obtain ⟨k, v, hkv⟩ := Split_pair_of_count e hcount
    obtain ⟨heq, hk, hv⟩ := (Split_pair_iff e k v).mp hkv
    refine ⟨k, v, heq, hk, hv, ?_⟩
    rw [hfold]
    exact foldl_labelStep_isSome _ _ k (Or.inl ⟨e, he, v, hkv⟩)
  · intro hall k
    cases hval : createHTTP01GatewayIssuer.labels Labels k with
    | none => rfl
    | some v =>
      obtain ⟨pre, post, hL, _, _, hcount, _⟩ := (hget k v).mp hval
      exact absurd hcount (hall _ (by rw [hL]; simp))

/-- Witness for C12: in `a=1,b=2,a=3,c,d=e=f` the last `a` entry wins, `c` and `d=e=f`
are skipped; in `c,d=e=f,` nothing is bound. -/
theorem gateway_labels_witness :
    createHTTP01GatewayIssuer.labels "a=1,b=2,a=3,c,d=e=f"
      = createHTTP01GatewayClusterIssuer.labels "a=1,b=2,a=3,c,d=e=f" ∧
    createHTTP01GatewayIssuer.labels "a=1,b=2,a=3,c,d=e=f" "a" = some "3" ∧
    (∃ pre post, Split "a=1,b=2,a=3,c,d=e=f" ',' = pre ++ "a=3" :: post ∧
      ∀ e ∈ post, ∀ v', '=' ∉ v'.data → e ≠ "a" ++ "=" ++ v') ∧
    (∀ k, createHTTP01GatewayIssuer.labels "c,d=e=f," k = none) :=
  have h := gateway_labels "a=1,b=2,a=3,c,d=e=f"
  have hex := (h.2.1 "a" "3").mp rfl
  ⟨h.1, rfl,
    hex.elim fun pre hpre => hpre.elim fun post hpost =>
      ⟨pre, post, hpost.1, hpost.2.2.2.2⟩,
    (gateway_labels "c,d=e=f,").2.2.2 (by decide)⟩

/-! ## Unsupported feature sets of the HTTP01 suites -/

theorem mem_addFeatures (feats : List Feature) : ∀ (members : List Feature) (f : Feature),
    f ∈ addFeatures members feats ↔ f ∈ members ∨ f ∈ feats := by
  induction feats with
  | nil =>
    intro members f
    simp [addFeatures]
  | cons g gs ih =>
    intro members f
    have hstep : addFeatures members (g :: gs)
        = addFeatures (if g ∈ members then members else members ++ [g]) gs := rfl
    rw [hstep, ih]
    by_cases hg : g ∈ members
    · simp only [hg, if_true, List.mem_cons]
      constructor
      · rintro (h | h)
        · exact Or.inl h
        · exact Or.inr (Or.inr h)
      · rintro (h | rfl | h)
        · exact Or.inl h
        · exact Or.inl hg
        · exact Or.inr h
    · simp only [hg, if_false, List.mem_append, List.mem_singleton, List.mem_cons]
      tauto

/-- C11: whatever was allocated before, the two Gateway HTTP01 suites are defined
with one feature set and the two Ingress HTTP01 suites with another, at a different
address. Once all suites are defined, the Gateway set has exactly the members of the
Ingress set and `IPAddressFeature`; the Ingress set is still the one
`NewFeatureSet` built from the eight listed features, and `IPAddressFeature` is not
in it. -/
theorem gateway_features_extend_ingress (eab : Option String) (h : Heap) :
    unsupportedFeaturesOf (runACMEIssuerTests eab h).1 "ACME HTTP01 Issuer (Ingress)"
      = some ⟨h.next⟩ ∧
    unsupportedFeaturesOf (runACMEIssuerTests eab h).1 "ACME HTTP01 ClusterIssuer (Ingress)"
      = some ⟨h.next⟩ ∧
    unsupportedFeaturesOf (runACMEIssuerTests eab h).1 "ACME HTTP01 Issuer (Gateway)"
      = some ⟨h.next + 1⟩ ∧
    unsupportedFeaturesOf (runACMEIssuerTests eab h).1 "ACME HTTP01 ClusterIssuer (Gateway)"
      = some ⟨h.next + 1⟩ ∧
    (∀ f, f ∈ (runACMEIssuerTests eab h).2.sets (h.next + 1) ↔
      f ∈ (runACMEIssuerTests eab h).2.sets h.next ∨ f = .IPAddressFeature) ∧
    (runACMEIssuerTests eab h).2.sets h.next
      = (NewFeatureSet h
          [.DurationFeature, .WildcardsFeature, .URISANsFeature, .CommonNameFeature,
           .KeyUsagesFeature, .EmailSANsFeature, .SaveCAToSecret, .IssueCAFeature]).2.sets
          h.next ∧
    (∀ f, f ∈ (runACMEIssuerTests eab h).2.sets h.next ↔
      f ∈ [Feature.DurationFeature, .WildcardsFeature, .URISANsFeature, .CommonNameFeature,
           .KeyUsagesFeature, .EmailSANsFeature, .SaveCAToSecret, .IssueCAFeature]) ∧
    Feature.IPAddressFeature ∉ (runACMEIssuerTests eab h).2.sets h.next := by
  have n₁ : ¬ h.next = h.next + 1 := by omega
  have n₂ : ¬ h.next = h.next + 1 + 1 := by omega
  have n₃ : ¬ h.next = h.next + 1 + 1 + 1 := by omega
  have hing : (runACMEIssuerTests eab h).2.sets h.next
      = addFeatures [] [.DurationFeature, .WildcardsFeature, .URISANsFeature,
          .CommonNameFeature, .KeyUsagesFeature, .EmailSANsFeature, .SaveCAToSecret,
          .IssueCAFeature] := by
    simp [runACMEIssuerTests, NewFeatureSet, FeatureSet.Copy, FeatureSet.Add, n₁, n₂, n₃]
  have hgw : (runACMEIssuerTests eab h).2.sets (h.next + 1)
      = addFeatures (addFeatures [] (addFeatures [] [.DurationFeature, .WildcardsFeature,
          .URISANsFeature, .CommonNameFeature, .KeyUsagesFeature, .EmailSANsFeature,
          .SaveCAToSecret, .IssueCAFeature])) [.IPAddressFeature] := by
    simp [runACMEIssuerTests, NewFeatureSet, FeatureSet.Copy, FeatureSet.Add, n₁, n₂, n₃]
  refine ⟨rfl, rfl, rfl, rfl, ?_, ?_, ?_, ?_⟩
  · intro f
    rw [hgw, hing]
    simp only [mem_addFeatures, List.mem_singleton, List.not_mem_nil, false_or]
  · rw [hing]
    simp [NewFeatureSet]
  · intro f
    rw [hing, mem_addFeatures]
    simp
  · rw [hing, mem_addFeatures]
    simp

/-- Witness for C11: starting from the empty heap, the Ingress suites use the set at
address 0, without `IPAddressFeature`, and the Gateway suites the set at address 1,
which holds it. -/
theorem gateway_features_extend_ingress_witness :
    unsupportedFeaturesOf (runACMEIssuerTests none Heap.empty).1
        "ACME HTTP01 Issuer (Ingress)" = some ⟨0⟩ ∧
    unsupportedFeaturesOf (runACMEIssuerTests none Heap.empty).1
        "ACME HTTP01 ClusterIssuer (Gateway)" = some ⟨1⟩ ∧
    Feature.IPAddressFeature ∈ (runACMEIssuerTests none Heap.empty).2.sets 1 ∧
    Feature.IPAddressFeature ∉ (runACMEIssuerTests none Heap.empty).2.sets 0 :=
  have h := gateway_features_extend_ingress none Heap.empty
  ⟨h.1, h.2.2.2.1, (h.2.2.2.2.1 _).mpr (Or.inr rfl), h.2.2.2.2.2.2.2⟩

end CertShim
